import Mathlib

/-!
Shallow embedding of `src/cpu/sys/linux/cpu_times.rs` from `rust-psutil`.

Strings are modelled as lists of characters, durations as exact rationals
(seconds), and the process-wide `TICKS_PER_SECOND` constant as an explicit
parameter `tps`.  File reads are modelled by passing the document text as an
argument, so `cpu_times`/`cpu_times_percpu` here take the text that
`fs::read_to_string("/proc/stat")` would have produced.
-/

namespace RustPsutil

/-- Characters of the source text; Rust strings are modelled as lists of
characters. -/
abbrev Str := List Char

/-- Whitespace test used by the tokenizer: the Unicode `White_Space` set that
Rust's `char::is_whitespace` (hence `str::split_whitespace`) recognises,
expressed on code points. -/
def isWS (c : Char) : Bool :=
  c.toNat = 32 || (9 ≤ c.toNat && c.toNat ≤ 13) || c.toNat = 133 || c.toNat = 160 ||
    c.toNat = 0x1680 || (0x2000 ≤ c.toNat && c.toNat ≤ 0x200A) || c.toNat = 0x2028 ||
    c.toNat = 0x2029 || c.toNat = 0x202F || c.toNat = 0x205F || c.toNat = 0x3000

/-- ASCII decimal digit test (code points 48 to 57). -/
def isDigitCh (c : Char) : Bool := 48 ≤ c.toNat && c.toNat ≤ 57

/-- Accumulating worker for `split_whitespace`; `acc` holds the characters of
the token currently being read, in reverse order. -/
def splitWSAux : Str → Str → List Str
  | acc, [] => if acc.isEmpty then [] else [acc.reverse]
  | acc, c :: rest =>
    if isWS c then
      if acc.isEmpty then splitWSAux [] rest else acc.reverse :: splitWSAux [] rest
    else
      splitWSAux (c :: acc) rest

/-- Model of Rust `str::split_whitespace`: the maximal nonempty runs of
non-whitespace characters of the string, in order. -/
def split_whitespace (s : Str) : List Str := splitWSAux [] s

/-- Numeric value of a digit string, most significant digit first. -/
def natOfDigits (t : Str) : Nat := t.foldl (fun a c => 10 * a + (c.toNat - 48)) 0

/-- Valid tick-count token: a nonempty run of ASCII decimal digits. -/
def validTok (t : Str) : Bool := !t.isEmpty && t.all isDigitCh

/-- Modelled from the spec: `Count::from_str` composed with the `try_parse!`
macro (neither the `Count` integer type alias nor `utils::try_parse!` is in
the visible source).  The spec says each token after the label is parsed "as a
non-negative integer tick count using the standard integer textual grammar
(optional sign not expected; any parse failure is an error)", so a token
parses exactly when it is a nonempty run of decimal digits, and yields its
decimal value. -/
def parseCount (t : Str) : Option Nat :=
  if validTok t then some (natOfDigits t) else none

/-- Parsed value of a token, defaulting to 0 when the token does not parse. -/
def parseCountD (t : Str) : Nat := (parseCount t).getD 0

/-- Decoding errors of the module.  The source reports all of them as
`std::io::Error` values built by `utils::invalid_data` (not in the visible
source; per the spec it wraps a descriptive message): `badToken` carries the
token whose integer parse failed (the `try_parse!` message), `fieldCount`
carries the actual field count of the "Expected 10 fields but got {}" message,
`emptyFile` is "'/proc/stat' is empty", and `missingPercpu` is "'/proc/stat'
is missing per cpu times". -/
inductive PsError where
  | badToken (tok : Str)
  | fieldCount (actual : Nat)
  | emptyFile
  | missingPercpu
deriving DecidableEq

/-- The `CpuTimes` record: every field is the time the CPU spent in the given
mode, in seconds (modelled as exact rationals instead of `Duration`). -/
structure CpuTimes where
  user : ℚ
  nice : ℚ
  system : ℚ
  idle : ℚ
  iowait : ℚ
  irq : ℚ
  softirq : ℚ
  steal : ℚ
  guest : ℚ
  guest_nice : ℚ
deriving DecidableEq

/-- `CpuTimes::busy`: sum written in the source's order
`user + system + nice + iowait + irq + softirq + steal`. -/
def CpuTimes.busy (t : CpuTimes) : ℚ :=
  t.user + t.system + t.nice + t.iowait + t.irq + t.softirq + t.steal

/-- `CpuTimes::total`: `busy() + idle()`. -/
def CpuTimes.total (t : CpuTimes) : ℚ :=
  t.busy + t.idle

/-- One tick count converted to seconds:
`Duration::from_secs_f64(entry as f64 / *TICKS_PER_SECOND)` with the duration
kept as an exact rational. -/
def tickToSecs (tps : ℚ) (n : Nat) : ℚ := (n : ℚ) / tps

/-- The `.map(|entry| Ok(try_parse!(entry, Count::from_str))).collect::<io::Result<Vec<Count>>>()`
stage of `CpuTimes::from_str`: parse every token, stopping at the first token
whose integer parse fails and returning its error. -/
def parseCounts : List Str → Except PsError (List Nat)
  | [] => .ok []
  | t :: ts =>
    match parseCount t with
    | none => .error (.badToken t)
    | some n =>
      match parseCounts ts with
      | .error e => .error e
      | .ok ns => .ok (n :: ns)

/-- `CpuTimes::from_str`: split the line on whitespace, skip the label token,
parse the remaining tokens as tick counts (fail-fast), convert each to
seconds, then require exactly 10 fields and build the record. -/
def CpuTimes.from_str (tps : ℚ) (s : Str) : Except PsError CpuTimes :=
  match parseCounts ((split_whitespace s).drop 1) with
  | .error e => .error e
  | .ok counts =>
    let fields := counts.map (tickToSecs tps)
    if h : fields.length = 10 then
      .ok
        { user := fields[0], nice := fields[1], system := fields[2], idle := fields[3],
          iowait := fields[4], irq := fields[5], softirq := fields[6], steal := fields[7],
          guest := fields[8], guest_nice := fields[9] }
    else
      .error (.fieldCount fields.length)

/-- Finish the line being accumulated (in reverse) when a `\n` terminator was
seen: a single `\r` just before the terminator is dropped, as in Rust
`str::lines`. -/
def finishLine : Str → Str
  | '\r' :: acc => acc.reverse
  | acc => acc.reverse

/-- Accumulating worker for `strLines`; `acc` holds the characters of the
current line in reverse order.  Invoked only on nonempty text. -/
def strLinesAux : Str → Str → List Str
  | acc, [] => [acc.reverse]
  | acc, '\n' :: rest =>
    finishLine acc :: (if rest.isEmpty then [] else strLinesAux [] rest)
  | acc, c :: rest => strLinesAux (c :: acc) rest

/-- Model of Rust `str::lines`: split at `\n` (also consuming a preceding
`\r`), with no trailing empty line for a trailing terminator and the empty
string having no lines. -/
def strLines (s : Str) : List Str := if s.isEmpty then [] else strLinesAux [] s

/-- `cpu_times`, with the text of `/proc/stat` passed in: error when the file
has no lines, otherwise parse the first line. -/
def cpu_times (tps : ℚ) (data : Str) : Except PsError CpuTimes :=
  match strLines data with
  | [] => .error .emptyFile
  | line :: _ => CpuTimes.from_str tps line

/-- The literal `"cpu"` that per-cpu lines are tested against with
`line.starts_with("cpu")`. -/
def cpuLineStart : Str := ['c', 'p', 'u']

/-- The line selection of `cpu_times_percpu`:
`data.lines().skip(1).take_while(|line| line.starts_with("cpu"))`. -/
def percpuLines (data : Str) : List Str :=
  ((strLines data).drop 1).takeWhile (fun l => cpuLineStart.isPrefixOf l)

/-- The parsing loop of `cpu_times_percpu`: parse every selected line in
order, returning the first error encountered. -/
def parseLines (tps : ℚ) : List Str → Except PsError (List CpuTimes)
  | [] => .ok []
  | l :: ls =>
    match CpuTimes.from_str tps l with
    | .error e => .error e
    | .ok r =>
      match parseLines tps ls with
      | .error e => .error e
      | .ok rs => .ok (r :: rs)

/-- `cpu_times_percpu`, with the text of `/proc/stat` passed in: select the
contiguous run of `cpu`-labelled lines after the first line, error when there
are none, otherwise parse them all fail-fast. -/
def cpu_times_percpu (tps : ℚ) (data : Str) : Except PsError (List CpuTimes) :=
  let lines := percpuLines data
  if lines.isEmpty then .error .missingPercpu
  else parseLines tps lines

/-- Joining tokens with single spaces, used to build a line from a label and
tick-count tokens. -/
def joinTokens : List Str → Str
  | [] => []
  | [t] => t
  | t :: ts => t ++ ' ' :: joinTokens ts

/-- Reading a run of non-whitespace characters extends the token accumulator. -/
theorem splitWSAux_token (t : Str) (hns : ∀ c ∈ t, isWS c = false) :
    ∀ (acc s : Str), splitWSAux acc (t ++ s) = splitWSAux (t.reverse ++ acc) s := by
  induction t with
  | nil => intro acc s; simp
  | cons c t ih =>
    intro acc s
    have hc : isWS c = false := hns c (by simp)
    have ht : ∀ x ∈ t, isWS x = false := fun x hx => hns x (by simp [hx])
    simp only [List.cons_append, splitWSAux, hc, Bool.false_eq_true, if_false,
      List.append_eq]
    rw [ih ht (c :: acc) s]
    simp

/-- Tokenizing a line rebuilt from nonempty whitespace-free tokens recovers
exactly those tokens. -/
theorem split_whitespace_joinTokens :
    ∀ ts : List Str, (∀ t ∈ ts, t ≠ [] ∧ ∀ c ∈ t, isWS c = false) →
      split_whitespace (joinTokens ts) = ts := by
  intro ts
  induction ts with
  | nil => intro _; rfl
  | cons t ts ih =>
    intro h
    obtain ⟨hne, hnw⟩ := h t (by simp)
    cases ts with
    | nil =>
      show splitWSAux [] (joinTokens [t]) = [t]
      have hj : joinTokens [t] = t ++ [] := by simp [joinTokens]
      rw [hj, splitWSAux_token t hnw [] []]
      simp [splitWSAux, hne]
    | cons t2 ts2 =>
      show splitWSAux [] (joinTokens (t :: t2 :: ts2)) = t :: t2 :: ts2
      have hj : joinTokens (t :: t2 :: ts2) = t ++ ' ' :: joinTokens (t2 :: ts2) := rfl
      rw [hj, splitWSAux_token t hnw [] _]
      have hs : isWS ' ' = true := by decide
      have hrne : t.reverse.isEmpty = false := by
        simp [List.isEmpty_iff, hne]
      simp only [List.append_nil, splitWSAux, hs, if_true, hrne, Bool.false_eq_true,
        if_false, List.reverse_reverse]
      show t :: split_whitespace (joinTokens (t2 :: ts2)) = t :: t2 :: ts2
      rw [ih (fun x hx => h x (by simp [hx]))]

/-- Every token produced by the tokenizer worker is nonempty. -/
theorem ne_nil_of_mem_splitWSAux :
    ∀ (s acc t : Str), t ∈ splitWSAux acc s → t ≠ [] := by
  intro s
  induction s with
  | nil =>
    intro acc t ht
    by_cases ha : acc.isEmpty
    · simp [splitWSAux, ha] at ht
    · simp only [splitWSAux, ha, Bool.false_eq_true, if_false, List.mem_singleton] at ht
      subst ht
      simp only [ne_eq, List.reverse_eq_nil_iff]
      simpa [List.isEmpty_iff] using ha
  | cons c rest ih =>
    intro acc t ht
    by_cases hc : isWS c = true
    · by_cases ha : acc.isEmpty
      · simp only [splitWSAux, hc, if_true, ha] at ht
        exact ih [] t ht
      · simp only [splitWSAux, hc, if_true, ha, Bool.false_eq_true, if_false,
          List.mem_cons] at ht
        rcases ht with rfl | ht
        · simp only [ne_eq, List.reverse_eq_nil_iff]
          simpa [List.isEmpty_iff] using ha
        · exact ih [] t ht
    · simp only [splitWSAux, hc, Bool.false_eq_true, if_false] at ht
      exact ih (c :: acc) t ht

/-- Every token produced by `split_whitespace` is nonempty. -/
theorem ne_nil_of_mem_split_whitespace (s t : Str) (ht : t ∈ split_whitespace s) :
    t ≠ [] :=
  ne_nil_of_mem_splitWSAux s [] t ht

/-- A token that parses yields its parsed value. -/
theorem parseCount_eq_some (t : Str) (h : (parseCount t).isSome = true) :
    parseCount t = some (parseCountD t) := by
  cases hp : parseCount t with
  | none => rw [hp] at h; simp at h
  | some n => simp [parseCountD, hp]

/-- When every token parses, the fail-fast collection succeeds with the parsed
values in order. -/
theorem parseCounts_ok (ts : List Str) (h : ∀ t ∈ ts, (parseCount t).isSome = true) :
    parseCounts ts = .ok (ts.map parseCountD) := by
  induction ts with
  | nil => rfl
  | cons t ts ih =>
    have h1 := parseCount_eq_some t (h t (by simp))
    have h2 := ih (fun x hx => h x (by simp [hx]))
    simp [parseCounts, h1, h2]

/-- The fail-fast collection reports the first token whose parse fails. -/
theorem parseCounts_err (pre : List Str) (t : Str) (post : List Str)
    (hpre : ∀ p ∈ pre, (parseCount p).isSome = true) (ht : parseCount t = none) :
    parseCounts (pre ++ t :: post) = .error (.badToken t) := by
  induction pre with
  | nil => simp [parseCounts, ht]
  | cons p pre ih =>
    have h1 := parseCount_eq_some p (hpre p (by simp))
    have h2 := ih (fun x hx => hpre x (by simp [hx]))
    simp [parseCounts, h1, h2]

/-- When some token fails to parse, the fail-fast collection returns a
bad-token error carrying one of the failing tokens. -/
theorem parseCounts_err_of_bad (ts : List Str) (h : ∃ t ∈ ts, parseCount t = none) :
    ∃ bad, bad ∈ ts ∧ parseCount bad = none ∧
      parseCounts ts = .error (.badToken bad) := by
  induction ts with
  | nil => simp at h
  | cons t ts ih =>
    cases hp : parseCount t with
    | none => exact ⟨t, by simp, hp, by simp [parseCounts, hp]⟩
    | some n =>
      have hex : ∃ x ∈ ts, parseCount x = none := by
        obtain ⟨x, hx, hxn⟩ := h
        rcases List.mem_cons.mp hx with rfl | hx2
        · rw [hp] at hxn; cases hxn
        · exact ⟨x, hx2, hxn⟩
      obtain ⟨bad, hbad, hbadn, heq⟩ := ih hex
      exact ⟨bad, by simp [hbad], hbadn, by simp [parseCounts, hp, heq]⟩

/-- A token containing a non-digit character does not parse. -/
theorem parseCount_none_of_nondigit (t : Str) (h : ∃ c ∈ t, isDigitCh c = false) :
    parseCount t = none := by
  obtain ⟨c, hc, hcd⟩ := h
  have hall : t.all isDigitCh = false := by
    rw [List.all_eq_false]
    exact ⟨c, hc, by simp [hcd]⟩
  simp [parseCount, validTok, hall]

/-- A nonempty token that does not parse contains a non-digit character. -/
theorem exists_nondigit_of_parseCount_none (t : Str) (hne : t ≠ [])
    (h : parseCount t = none) : ∃ c ∈ t, isDigitCh c = false := by
  by_contra hcon
  push_neg at hcon
  have hall : t.all isDigitCh = true := by
    rw [List.all_eq_true]
    intro c hc
    have := hcon c hc
    simpa using this
  have hv : validTok t = true := by
    simp [validTok, hall, List.isEmpty_iff, hne]
  rw [parseCount, hv] at h
  simp at h

/-- A digit character is not whitespace. -/
theorem isWS_eq_false_of_isDigitCh (c : Char) (h : isDigitCh c = true) :
    isWS c = false := by
  simp only [isDigitCh, Bool.and_eq_true, decide_eq_true_eq] at h
  simp only [isWS, Bool.or_eq_false_iff, Bool.and_eq_false_iff, decide_eq_false_iff_not]
  omega

/-- A valid token is nonempty and whitespace-free. -/
theorem validTok_ne_nil_nws (t : Str) (h : validTok t = true) :
    t ≠ [] ∧ ∀ c ∈ t, isWS c = false := by
  simp only [validTok, Bool.and_eq_true, Bool.not_eq_true', List.all_eq_true] at h
  obtain ⟨h1, h2⟩ := h
  refine ⟨by simpa [List.isEmpty_iff] using h1, fun c hc => ?_⟩
  exact isWS_eq_false_of_isDigitCh c (h2 c hc)

/-- A valid token parses. -/
theorem parseCount_isSome_of_valid (t : Str) (h : validTok t = true) :
    (parseCount t).isSome = true := by
  simp [parseCount, h]

/-- Central success lemma for the record parser: a line that tokenizes into a
label and ten parsing tokens yields the record of the converted tick counts,
in field order. -/
theorem from_str_ok10 (tps : ℚ) (s lab t0 t1 t2 t3 t4 t5 t6 t7 t8 t9 : Str)
    (hsplit : split_whitespace s = [lab, t0, t1, t2, t3, t4, t5, t6, t7, t8, t9])
    (h0 : (parseCount t0).isSome = true) (h1 : (parseCount t1).isSome = true)
    (h2 : (parseCount t2).isSome = true) (h3 : (parseCount t3).isSome = true)
    (h4 : (parseCount t4).isSome = true) (h5 : (parseCount t5).isSome = true)
    (h6 : (parseCount t6).isSome = true) (h7 : (parseCount t7).isSome = true)
    (h8 : (parseCount t8).isSome = true) (h9 : (parseCount t9).isSome = true) :
    CpuTimes.from_str tps s = .ok
      { user := tickToSecs tps (parseCountD t0)
        nice := tickToSecs tps (parseCountD t1)
        system := tickToSecs tps (parseCountD t2)
        idle := tickToSecs tps (parseCountD t3)
        iowait := tickToSecs tps (parseCountD t4)
        irq := tickToSecs tps (parseCountD t5)
        softirq := tickToSecs tps (parseCountD t6)
        steal := tickToSecs tps (parseCountD t7)
        guest := tickToSecs tps (parseCountD t8)
        guest_nice := tickToSecs tps (parseCountD t9) } := by
  have hdrop : (split_whitespace s).drop 1 = [t0, t1, t2, t3, t4, t5, t6, t7, t8, t9] := by
    rw [hsplit]; rfl
  have hok : parseCounts [t0, t1, t2, t3, t4, t5, t6, t7, t8, t9] =
      .ok [parseCountD t0, parseCountD t1, parseCountD t2, parseCountD t3,
        parseCountD t4, parseCountD t5, parseCountD t6, parseCountD t7,
        parseCountD t8, parseCountD t9] := by
    simp [parseCounts, parseCount_eq_some t0 h0, parseCount_eq_some t1 h1,
      parseCount_eq_some t2 h2, parseCount_eq_some t3 h3, parseCount_eq_some t4 h4,
      parseCount_eq_some t5 h5, parseCount_eq_some t6 h6, parseCount_eq_some t7 h7,
      parseCount_eq_some t8 h8, parseCount_eq_some t9 h9]
  unfold CpuTimes.from_str
  rw [hdrop, hok]
  rfl

/-- Central failure lemma for the field-count check: when every token parses
but there are not exactly 10 of them, the record parser reports the count. -/
theorem from_str_count_err (tps : ℚ) (s : Str) (ns : List Nat)
    (hok : parseCounts ((split_whitespace s).drop 1) = .ok ns)
    (hlen : ns.length ≠ 10) :
    CpuTimes.from_str tps s = .error (.fieldCount ns.length) := by
  unfold CpuTimes.from_str
  rw [hok]
  have hl : (ns.map (tickToSecs tps)).length = ns.length := by simp
  simp only []
  split
  · next hten => exact absurd (hl ▸ hten) hlen
  · next hten => rw [hl]

/-- Central failure lemma for the token parse: when the fail-fast collection
errors, the record parser propagates that error. -/
theorem from_str_parse_err (tps : ℚ) (s : Str) (e : PsError)
    (herr : parseCounts ((split_whitespace s).drop 1) = .error e) :
    CpuTimes.from_str tps s = .error e := by
  unfold CpuTimes.from_str
  rw [herr]

/-- The per-line parsing loop succeeds exactly when every line parses, in
order. -/
theorem parseLines_ok (tps : ℚ) :
    ∀ (ls : List Str) (rs : List CpuTimes),
      ls.map (CpuTimes.from_str tps) = rs.map Except.ok →
      parseLines tps ls = .ok rs := by
  intro ls
  induction ls with
  | nil =>
    intro rs h
    cases rs with
    | nil => rfl
    | cons r rs => simp at h
  | cons l ls ih =>
    intro rs h
    cases rs with
    | nil => simp at h
    | cons r rs =>
      simp only [List.map_cons, List.cons.injEq] at h
      obtain ⟨h1, h2⟩ := h
      simp [parseLines, h1, ih rs h2]

/-- The per-line parsing loop propagates the error of the first failing line. -/
theorem parseLines_err (tps : ℚ) (pre : List Str) (l : Str) (post : List Str)
    (e : PsError)
    (hpre : ∀ p ∈ pre, ∃ r, CpuTimes.from_str tps p = .ok r)
    (hl : CpuTimes.from_str tps l = .error e) :
    parseLines tps (pre ++ l :: post) = .error e := by
  induction pre with
  | nil => simp [parseLines, hl]
  | cons p pre ih =>
    obtain ⟨r, hr⟩ := hpre p (by simp)
    have h2 := ih (fun x hx => hpre x (by simp [hx]))
    simp [parseLines, hr, h2]

/-- Success lemma for a line built from a whitespace-free label and ten valid
tick-count tokens: the label's content does not influence the result. -/
theorem from_str_join_ok (tps : ℚ) (lab t0 t1 t2 t3 t4 t5 t6 t7 t8 t9 : Str)
    (hl : lab ≠ []) (hw : ∀ c ∈ lab, isWS c = false)
    (v0 : validTok t0 = true) (v1 : validTok t1 = true) (v2 : validTok t2 = true)
    (v3 : validTok t3 = true) (v4 : validTok t4 = true) (v5 : validTok t5 = true)
    (v6 : validTok t6 = true) (v7 : validTok t7 = true) (v8 : validTok t8 = true)
    (v9 : validTok t9 = true) :
    CpuTimes.from_str tps (joinTokens [lab, t0, t1, t2, t3, t4, t5, t6, t7, t8, t9]) = .ok
      { user := tickToSecs tps (parseCountD t0)
        nice := tickToSecs tps (parseCountD t1)
        system := tickToSecs tps (parseCountD t2)
        idle := tickToSecs tps (parseCountD t3)
        iowait := tickToSecs tps (parseCountD t4)
        irq := tickToSecs tps (parseCountD t5)
        softirq := tickToSecs tps (parseCountD t6)
        steal := tickToSecs tps (parseCountD t7)
        guest := tickToSecs tps (parseCountD t8)
        guest_nice := tickToSecs tps (parseCountD t9) } := by
  have hsplit : split_whitespace (joinTokens [lab, t0, t1, t2, t3, t4, t5, t6, t7, t8, t9]) =
      [lab, t0, t1, t2, t3, t4, t5, t6, t7, t8, t9] := by
    apply split_whitespace_joinTokens
    intro x hx
    simp only [List.mem_cons, List.not_mem_nil, or_false] at hx
    rcases hx with rfl | rfl | rfl | rfl | rfl | rfl | rfl | rfl | rfl | rfl | rfl
    · exact ⟨hl, hw⟩
    · exact validTok_ne_nil_nws _ v0
    · exact validTok_ne_nil_nws _ v1
    · exact validTok_ne_nil_nws _ v2
    · exact validTok_ne_nil_nws _ v3
    · exact validTok_ne_nil_nws _ v4
    · exact validTok_ne_nil_nws _ v5
    · exact validTok_ne_nil_nws _ v6
    · exact validTok_ne_nil_nws _ v7
    · exact validTok_ne_nil_nws _ v8
    · exact validTok_ne_nil_nws _ v9
  exact from_str_ok10 tps _ lab t0 t1 t2 t3 t4 t5 t6 t7 t8 t9 hsplit
    (parseCount_isSome_of_valid _ v0) (parseCount_isSome_of_valid _ v1)
    (parseCount_isSome_of_valid _ v2) (parseCount_isSome_of_valid _ v3)
    (parseCount_isSome_of_valid _ v4) (parseCount_isSome_of_valid _ v5)
    (parseCount_isSome_of_valid _ v6) (parseCount_isSome_of_valid _ v7)
    (parseCount_isSome_of_valid _ v8) (parseCount_isSome_of_valid _ v9)

/-- C1: a line made of a label token and exactly 10 tokens that each parse as
a non-negative integer is accepted by `CpuTimes::from_str`, and the record's
ten fields are, in the fixed order user, nice, system, idle, iowait, irq,
softirq, steal, guest, guest_nice, the corresponding tick count divided by
the ticks-per-second constant. -/
theorem c1_from_str_valid_ten_field_line (tps : ℚ)
    (s lab t0 t1 t2 t3 t4 t5 t6 t7 t8 t9 : Str)
    (hsplit : split_whitespace s = [lab, t0, t1, t2, t3, t4, t5, t6, t7, t8, t9])
    (h0 : (parseCount t0).isSome = true) (h1 : (parseCount t1).isSome = true)
    (h2 : (parseCount t2).isSome = true) (h3 : (parseCount t3).isSome = true)
    (h4 : (parseCount t4).isSome = true) (h5 : (parseCount t5).isSome = true)
    (h6 : (parseCount t6).isSome = true) (h7 : (parseCount t7).isSome = true)
    (h8 : (parseCount t8).isSome = true) (h9 : (parseCount t9).isSome = true) :
    CpuTimes.from_str tps s = .ok
      { user := tickToSecs tps (parseCountD t0)
        nice := tickToSecs tps (parseCountD t1)
        system := tickToSecs tps (parseCountD t2)
        idle := tickToSecs tps (parseCountD t3)
        iowait := tickToSecs tps (parseCountD t4)
        irq := tickToSecs tps (parseCountD t5)
        softirq := tickToSecs tps (parseCountD t6)
        steal := tickToSecs tps (parseCountD t7)
        guest := tickToSecs tps (parseCountD t8)
        guest_nice := tickToSecs tps (parseCountD t9) } :=
  from_str_ok10 tps s lab t0 t1 t2 t3 t4 t5 t6 t7 t8 t9 hsplit h0 h1 h2 h3 h4 h5 h6 h7 h8 h9

/-- Witness for C1 on the line `cpu 1 2 3 4 5 6 7 8 9 10` with 100 ticks per
second. -/
theorem c1_witness :
    split_whitespace ("cpu 1 2 3 4 5 6 7 8 9 10".data) =
      [['c', 'p', 'u'], ['1'], ['2'], ['3'], ['4'], ['5'], ['6'], ['7'], ['8'], ['9'],
        ['1', '0']] ∧
    (parseCount ['1']).isSome = true ∧ (parseCount ['2']).isSome = true ∧
    (parseCount ['3']).isSome = true ∧ (parseCount ['4']).isSome = true ∧
    (parseCount ['5']).isSome = true ∧ (parseCount ['6']).isSome = true ∧
    (parseCount ['7']).isSome = true ∧ (parseCount ['8']).isSome = true ∧
    (parseCount ['9']).isSome = true ∧ (parseCount ['1', '0']).isSome = true ∧
    CpuTimes.from_str 100 ("cpu 1 2 3 4 5 6 7 8 9 10".data) = .ok
      { user := tickToSecs 100 (parseCountD ['1'])
        nice := tickToSecs 100 (parseCountD ['2'])
        system := tickToSecs 100 (parseCountD ['3'])
        idle := tickToSecs 100 (parseCountD ['4'])
        iowait := tickToSecs 100 (parseCountD ['5'])
        irq := tickToSecs 100 (parseCountD ['6'])
        softirq := tickToSecs 100 (parseCountD ['7'])
        steal := tickToSecs 100 (parseCountD ['8'])
        guest := tickToSecs 100 (parseCountD ['9'])
        guest_nice := tickToSecs 100 (parseCountD ['1', '0']) } :=
  ⟨by decide, by decide, by decide, by decide, by decide, by decide, by decide, by decide,
    by decide, by decide, by decide,
    c1_from_str_valid_ten_field_line 100 ("cpu 1 2 3 4 5 6 7 8 9 10".data)
      ['c', 'p', 'u'] ['1'] ['2'] ['3'] ['4'] ['5'] ['6'] ['7'] ['8'] ['9'] ['1', '0']
      (by decide) (by decide) (by decide) (by decide) (by decide) (by decide) (by decide)
      (by decide) (by decide) (by decide) (by decide)⟩

/-- C2: `busy()` is the sum of the seven fields user, nice, system, iowait,
irq, softirq, steal, and changing guest or guest_nice never changes it. -/
theorem c2_busy_sum_seven (t : CpuTimes) :
    t.busy = t.user + t.nice + t.system + t.iowait + t.irq + t.softirq + t.steal ∧
    ∀ g gn : ℚ, ({ t with guest := g, guest_nice := gn } : CpuTimes).busy = t.busy := by
  constructor
  · unfold CpuTimes.busy
    ring
  · intro g gn
    rfl

/-- C3: a line in which some token after the label contains a non-digit
character is rejected by `CpuTimes::from_str` with a bad-token error carrying
an offending token (the first token whose parse fails). -/
theorem c3_nondigit_field_fails (tps : ℚ) (s lab : Str) (toks : List Str)
    (hsplit : split_whitespace s = lab :: toks)
    (hbad : ∃ t ∈ toks, ∃ c ∈ t, isDigitCh c = false) :
    ∃ bad, bad ∈ toks ∧ (∃ c ∈ bad, isDigitCh c = false) ∧
      CpuTimes.from_str tps s = .error (.badToken bad) := by
  have hex : ∃ t ∈ toks, parseCount t = none := by
    obtain ⟨t, ht, hc⟩ := hbad
    exact ⟨t, ht, parseCount_none_of_nondigit t hc⟩
  obtain ⟨bad, hbad2, hbadn, heq⟩ := parseCounts_err_of_bad toks hex
  have hbne : bad ≠ [] := by
    apply ne_nil_of_mem_split_whitespace s
    rw [hsplit]
    exact List.mem_cons_of_mem lab hbad2
  have hdrop : (split_whitespace s).drop 1 = toks := by rw [hsplit]; rfl
  refine ⟨bad, hbad2, exists_nondigit_of_parseCount_none bad hbne hbadn, ?_⟩
  exact from_str_parse_err tps s _ (by rw [hdrop]; exact heq)

/-- Witness for C3 on the line `cpu 1 x 3`. -/
theorem c3_witness :
    split_whitespace ("cpu 1 x 3".data) = ['c', 'p', 'u'] :: [['1'], ['x'], ['3']] ∧
    (∃ t ∈ [['1'], ['x'], ['3']], ∃ c ∈ t, isDigitCh c = false) ∧
    ∃ bad, bad ∈ [['1'], ['x'], ['3']] ∧ (∃ c ∈ bad, isDigitCh c = false) ∧
      CpuTimes.from_str 100 ("cpu 1 x 3".data) = .error (.badToken bad) :=
  ⟨by decide, by decide,
    c3_nondigit_field_fails 100 ("cpu 1 x 3".data) ['c', 'p', 'u'] [['1'], ['x'], ['3']]
      (by decide) (by decide)⟩

/-- C4 counterexample: on the line `cpu x` the token count after the label is
1, not 10, yet `CpuTimes::from_str` fails with the bad-token error for `x`
rather than with the field-count error reporting the actual count. -/
theorem c4_counterexample :
    CpuTimes.from_str 100 ("cpu x".data) = .error (.badToken ['x']) ∧
    ((split_whitespace ("cpu x".data)).drop 1).length = 1 ∧
    (1 : Nat) ≠ 10 ∧
    (Except.error (PsError.badToken ['x']) : Except PsError CpuTimes) ≠
      Except.error (PsError.fieldCount 1) := by
  refine ⟨rfl, by decide, by decide, ?_⟩
  intro h
  injection h with h2
  exact PsError.noConfusion h2

/-- C4 as amended: a line with a label whose tokens all parse as non-negative
integers but whose token count is not 10 fails with the field-count error
carrying the actual count. -/
theorem c4_count_error_when_tokens_parse (tps : ℚ) (s lab : Str) (toks : List Str)
    (hsplit : split_whitespace s = lab :: toks)
    (hall : ∀ t ∈ toks, (parseCount t).isSome = true)
    (hlen : toks.length ≠ 10) :
    CpuTimes.from_str tps s = .error (.fieldCount toks.length) := by
  have hdrop : (split_whitespace s).drop 1 = toks := by rw [hsplit]; rfl
  have hok : parseCounts ((split_whitespace s).drop 1) = .ok (toks.map parseCountD) := by
    rw [hdrop]
    exact parseCounts_ok toks hall
  have hres := from_str_count_err tps s (toks.map parseCountD) hok (by simpa using hlen)
  simpa using hres

/-- Witness for the amended C4 on the line `cpu 1 2 3`. -/
theorem c4_witness :
    split_whitespace ("cpu 1 2 3".data) = ['c', 'p', 'u'] :: [['1'], ['2'], ['3']] ∧
    (∀ t ∈ [['1'], ['2'], ['3']], (parseCount t).isSome = true) ∧
    ([['1'], ['2'], ['3']] : List Str).length ≠ 10 ∧
    CpuTimes.from_str 100 ("cpu 1 2 3".data) = .error (.fieldCount 3) :=
  ⟨by decide, by decide, by decide,
    c4_count_error_when_tokens_parse 100 ("cpu 1 2 3".data) ['c', 'p', 'u']
      [['1'], ['2'], ['3']] (by decide) (by decide) (by decide)⟩

/-- C5: the per-core read parses exactly the lines selected by skipping the
first line and taking the contiguous run of immediately-following lines that
start with `cpu`, producing one record per selected line in file order. -/
theorem c5_percpu_selected_lines_in_order (tps : ℚ) (data : Str) (rs : List CpuTimes)
    (hne : percpuLines data ≠ [])
    (hmap : (percpuLines data).map (CpuTimes.from_str tps) = rs.map Except.ok) :
    cpu_times_percpu tps data = .ok rs := by
  have hE : (percpuLines data).isEmpty = false := by
    simp [List.isEmpty_iff, hne]
  unfold cpu_times_percpu
  simp only [hE, Bool.false_eq_true, if_false]
  exact parseLines_ok tps _ rs hmap

/-- Witness for C5 on a document whose per-core run is one line, followed by a
non-`cpu` line and a later stray `cpu2` line that is not selected. -/
theorem c5_witness :
    percpuLines
        ("cpu  0 0 0 0 0 0 0 0 0 0\ncpu0 100 200 300 400 500 600 700 800 900 1000\nintr 5\ncpu2 1 2 3 4 5 6 7 8 9 10".data) ≠
      [] ∧
    (percpuLines
          ("cpu  0 0 0 0 0 0 0 0 0 0\ncpu0 100 200 300 400 500 600 700 800 900 1000\nintr 5\ncpu2 1 2 3 4 5 6 7 8 9 10".data)).map
        (CpuTimes.from_str 100) =
      ([{ user := tickToSecs 100 (parseCountD ['1', '0', '0'])
          nice := tickToSecs 100 (parseCountD ['2', '0', '0'])
          system := tickToSecs 100 (parseCountD ['3', '0', '0'])
          idle := tickToSecs 100 (parseCountD ['4', '0', '0'])
          iowait := tickToSecs 100 (parseCountD ['5', '0', '0'])
          irq := tickToSecs 100 (parseCountD ['6', '0', '0'])
          softirq := tickToSecs 100 (parseCountD ['7', '0', '0'])
          steal := tickToSecs 100 (parseCountD ['8', '0', '0'])
          guest := tickToSecs 100 (parseCountD ['9', '0', '0'])
          guest_nice := tickToSecs 100 (parseCountD ['1', '0', '0', '0']) }] :
        List CpuTimes).map Except.ok ∧
    cpu_times_percpu 100
        ("cpu  0 0 0 0 0 0 0 0 0 0\ncpu0 100 200 300 400 500 600 700 800 900 1000\nintr 5\ncpu2 1 2 3 4 5 6 7 8 9 10".data) =
      .ok
        [{ user := tickToSecs 100 (parseCountD ['1', '0', '0'])
           nice := tickToSecs 100 (parseCountD ['2', '0', '0'])
           system := tickToSecs 100 (parseCountD ['3', '0', '0'])
           idle := tickToSecs 100 (parseCountD ['4', '0', '0'])
           iowait := tickToSecs 100 (parseCountD ['5', '0', '0'])
           irq := tickToSecs 100 (parseCountD ['6', '0', '0'])
           softirq := tickToSecs 100 (parseCountD ['7', '0', '0'])
           steal := tickToSecs 100 (parseCountD ['8', '0', '0'])
           guest := tickToSecs 100 (parseCountD ['9', '0', '0'])
           guest_nice := tickToSecs 100 (parseCountD ['1', '0', '0', '0']) }] :=
  ⟨by decide, by rfl,
    c5_percpu_selected_lines_in_order 100
      ("cpu  0 0 0 0 0 0 0 0 0 0\ncpu0 100 200 300 400 500 600 700 800 900 1000\nintr 5\ncpu2 1 2 3 4 5 6 7 8 9 10".data)
      _ (by decide) (by rfl)⟩

/-- C6: the per-core read is fail-fast: when the selected lines split as a
prefix of parsing lines followed by a failing line, the whole read returns
that line's error and no partial record list. -/
theorem c6_percpu_fail_fast (tps : ℚ) (data : Str) (pre : List Str) (l : Str)
    (post : List Str) (e : PsError)
    (hsel : percpuLines data = pre ++ l :: post)
    (hpre : ∀ p ∈ pre, ∃ r, CpuTimes.from_str tps p = .ok r)
    (hl : CpuTimes.from_str tps l = .error e) :
    cpu_times_percpu tps data = .error e := by
  have hE : (percpuLines data).isEmpty = false := by
    rw [hsel]
    simp
  unfold cpu_times_percpu
  simp only [hE, Bool.false_eq_true, if_false]
  rw [hsel]
  exact parseLines_err tps pre l post e hpre hl

/-- Witness for C6 on a document whose single selected per-core line is
malformed. -/
theorem c6_witness :
    percpuLines ("cpu x\ncpu0 1 2 3\nfoo 1".data) =
      [] ++ ("cpu0 1 2 3".data) :: [] ∧
    (∀ p ∈ ([] : List Str), ∃ r, CpuTimes.from_str 100 p = .ok r) ∧
    CpuTimes.from_str 100 ("cpu0 1 2 3".data) = .error (.fieldCount 3) ∧
    cpu_times_percpu 100 ("cpu x\ncpu0 1 2 3\nfoo 1".data) = .error (.fieldCount 3) :=
  ⟨by decide, by simp, by rfl,
    c6_percpu_fail_fast 100 ("cpu x\ncpu0 1 2 3\nfoo 1".data) [] ("cpu0 1 2 3".data) []
      (.fieldCount 3) (by decide) (by simp) (by rfl)⟩

/-- C7: on the empty document the aggregate read fails with the empty-source
error and the per-core read fails with the missing-per-core error. -/
theorem c7_empty_document_errors (tps : ℚ) :
    cpu_times tps [] = .error .emptyFile ∧
    cpu_times_percpu tps [] = .error .missingPercpu :=
  ⟨rfl, rfl⟩

/-- C8: token parsing precedes the field-count check: when the tokens after
the label are a run of parsing tokens followed by a token whose parse fails,
and the total count is not 10, the error is the bad-token error for that
first failing token, not the field-count error. -/
theorem c8_token_error_precedes_count_error (tps : ℚ) (s lab : Str)
    (pre : List Str) (t : Str) (post : List Str)
    (hsplit : split_whitespace s = lab :: (pre ++ t :: post))
    (hpre : ∀ p ∈ pre, (parseCount p).isSome = true)
    (ht : parseCount t = none)
    (hlen : (pre ++ t :: post).length ≠ 10) :
    CpuTimes.from_str tps s = .error (.badToken t) := by
  have hdrop : (split_whitespace s).drop 1 = pre ++ t :: post := by rw [hsplit]; rfl
  exact from_str_parse_err tps s _ (by rw [hdrop]; exact parseCounts_err pre t post hpre ht)

/-- Witness for C8 on the line `cpu 1 x`, which has both a malformed token
and a wrong field count. -/
theorem c8_witness :
    split_whitespace ("cpu 1 x".data) = ['c', 'p', 'u'] :: ([['1']] ++ ['x'] :: []) ∧
    (∀ p ∈ [['1']], (parseCount p).isSome = true) ∧
    parseCount ['x'] = none ∧
    ([['1']] ++ ['x'] :: []).length ≠ 10 ∧
    CpuTimes.from_str 100 ("cpu 1 x".data) = .error (.badToken ['x']) :=
  ⟨by decide, by decide, by decide, by decide,
    c8_token_error_precedes_count_error 100 ("cpu 1 x".data) ['c', 'p', 'u']
      [['1']] ['x'] [] (by decide) (by decide) (by decide) (by decide)⟩

/-- C9: the label token is never inspected: two lines made of different
whitespace-free labels and the same ten valid tick-count tokens parse to the
same record, and parsing succeeds. -/
theorem c9_label_not_inspected (tps : ℚ) (lab1 lab2 t0 t1 t2 t3 t4 t5 t6 t7 t8 t9 : Str)
    (hl1 : lab1 ≠ []) (hw1 : ∀ c ∈ lab1, isWS c = false)
    (hl2 : lab2 ≠ []) (hw2 : ∀ c ∈ lab2, isWS c = false)
    (v0 : validTok t0 = true) (v1 : validTok t1 = true) (v2 : validTok t2 = true)
    (v3 : validTok t3 = true) (v4 : validTok t4 = true) (v5 : validTok t5 = true)
    (v6 : validTok t6 = true) (v7 : validTok t7 = true) (v8 : validTok t8 = true)
    (v9 : validTok t9 = true) :
    CpuTimes.from_str tps (joinTokens [lab1, t0, t1, t2, t3, t4, t5, t6, t7, t8, t9]) =
      CpuTimes.from_str tps (joinTokens [lab2, t0, t1, t2, t3, t4, t5, t6, t7, t8, t9]) ∧
    CpuTimes.from_str tps (joinTokens [lab1, t0, t1, t2, t3, t4, t5, t6, t7, t8, t9]) = .ok
      { user := tickToSecs tps (parseCountD t0)
        nice := tickToSecs tps (parseCountD t1)
        system := tickToSecs tps (parseCountD t2)
        idle := tickToSecs tps (parseCountD t3)
        iowait := tickToSecs tps (parseCountD t4)
        irq := tickToSecs tps (parseCountD t5)
        softirq := tickToSecs tps (parseCountD t6)
        steal := tickToSecs tps (parseCountD t7)
        guest := tickToSecs tps (parseCountD t8)
        guest_nice := tickToSecs tps (parseCountD t9) } := by
  have e1 := from_str_join_ok tps lab1 t0 t1 t2 t3 t4 t5 t6 t7 t8 t9 hl1 hw1
    v0 v1 v2 v3 v4 v5 v6 v7 v8 v9
  have e2 := from_str_join_ok tps lab2 t0 t1 t2 t3 t4 t5 t6 t7 t8 t9 hl2 hw2
    v0 v1 v2 v3 v4 v5 v6 v7 v8 v9
  exact ⟨e1.trans e2.symm, e1⟩

/-- Witness for C9 with labels `cpu` and `zzz` and tokens `0` through `9`. -/
theorem c9_witness :
    (['c', 'p', 'u'] : Str) ≠ [] ∧
    (∀ c ∈ (['c', 'p', 'u'] : Str), isWS c = false) ∧
    (['z', 'z', 'z'] : Str) ≠ [] ∧
    (∀ c ∈ (['z', 'z', 'z'] : Str), isWS c = false) ∧
    validTok ['0'] = true ∧ validTok ['1'] = true ∧ validTok ['2'] = true ∧
    validTok ['3'] = true ∧ validTok ['4'] = true ∧ validTok ['5'] = true ∧
    validTok ['6'] = true ∧ validTok ['7'] = true ∧ validTok ['8'] = true ∧
    validTok ['9'] = true ∧
    (CpuTimes.from_str 100
        (joinTokens [['c', 'p', 'u'], ['0'], ['1'], ['2'], ['3'], ['4'], ['5'], ['6'],
          ['7'], ['8'], ['9']]) =
      CpuTimes.from_str 100
        (joinTokens [['z', 'z', 'z'], ['0'], ['1'], ['2'], ['3'], ['4'], ['5'], ['6'],
          ['7'], ['8'], ['9']]) ∧
    CpuTimes.from_str 100
        (joinTokens [['c', 'p', 'u'], ['0'], ['1'], ['2'], ['3'], ['4'], ['5'], ['6'],
          ['7'], ['8'], ['9']]) = .ok
      { user := tickToSecs 100 (parseCountD ['0'])
        nice := tickToSecs 100 (parseCountD ['1'])
        system := tickToSecs 100 (parseCountD ['2'])
        idle := tickToSecs 100 (parseCountD ['3'])
        iowait := tickToSecs 100 (parseCountD ['4'])
        irq := tickToSecs 100 (parseCountD ['5'])
        softirq := tickToSecs 100 (parseCountD ['6'])
        steal := tickToSecs 100 (parseCountD ['7'])
        guest := tickToSecs 100 (parseCountD ['8'])
        guest_nice := tickToSecs 100 (parseCountD ['9']) }) :=
  ⟨by decide, by decide, by decide, by decide, by decide, by decide, by decide, by decide,
    by decide, by decide, by decide, by decide, by decide, by decide,
    c9_label_not_inspected 100 ['c', 'p', 'u'] ['z', 'z', 'z'] ['0'] ['1'] ['2'] ['3']
      ['4'] ['5'] ['6'] ['7'] ['8'] ['9'] (by decide) (by decide) (by decide) (by decide)
      (by decide) (by decide) (by decide) (by decide) (by decide) (by decide)
      (by decide) (by decide) (by decide) (by decide)⟩

/-- C10: a document consisting of one bare newline is not treated as empty by
the aggregate read: it fails with the field-count error reporting 0 fields,
not with the empty-source error. -/
theorem c10_single_newline_not_empty (tps : ℚ) :
    cpu_times tps ['\n'] = .error (.fieldCount 0) ∧
    cpu_times tps ['\n'] ≠ .error .emptyFile := by
  refine ⟨rfl, ?_⟩
  intro h
  rw [show cpu_times tps ['\n'] = Except.error (PsError.fieldCount 0) from rfl] at h
  injection h with h2
  exact PsError.noConfusion h2

end RustPsutil
